import Mathlib

set_option maxHeartbeats 1000000

/-!
Verification of the request-dispatch and streaming-translation core of the
grok-art-p gateway (a Cloudflare-Workers proxy re-exposing an upstream
image/text API through two downstream protocols).

The TypeScript sources are embedded shallowly:
* strings are modelled as `List Char`, so JavaScript `includes`, `split`,
  `startsWith` and concatenation become structural Lean functions;
* each `for await` consumer loop becomes a structural recursion over the
  finite list of updates the upstream generator yields, and each
  `while (retryCount < MAX_RETRIES)` loop becomes either a fuel-indexed
  function (returning `none` when the fuel runs out before the loop ends)
  or a small-step transition relation for reachable-state invariants;
* the upstream generator `streamChat` (whose file is not part of the core
  under verification) is left abstract: every claim quantifies over all
  finite update sequences and thrown-exception messages, which covers every
  behaviour the real generator can exhibit.
-/

namespace GrokArt

/-- JavaScript strings are modelled as lists of characters. -/
abbrev JStr := List Char

/-- Model of JavaScript `s.includes(sub)`: substring containment. -/
def jsIncludes : JStr → JStr → Bool
  | [], sub => sub.isEmpty
  | c :: t, sub => sub.isPrefixOf (c :: t) || jsIncludes t sub

/-- `const MAX_RETRIES = 5` (src/unnamed/part_004 line 394, part_005 line 17). -/
def MAX_RETRIES : Nat := 5

/-- Model of `Math.ceil(n / 4)` on a nonnegative integral counter. -/
def jsCeilDiv4 (n : Nat) : Nat := (n + 3) / 4

def lit429 : JStr := "429".data

def litRate : JStr := "rate".data

def lit401 : JStr := "401".data

def litRateLimited : JStr := "Rate limited".data

/-- Rate-limit classification in the /v1/messages handlers (part_005):
`msg.includes("429") || msg.includes("rate") || msg.includes("401")`.
The `catch` blocks test only `"429"` and `"rate"`; the flag `with401`
selects which variant applies. -/
def isRateLimitedMsg (with401 : Bool) (msg : JStr) : Bool :=
  jsIncludes msg lit429 || jsIncludes msg litRate || (with401 && jsIncludes msg lit401)

/-- Rate-limit classification in the imagine routes (part_004):
`msg.includes("429") || msg.includes("Rate limited")`. -/
def isRateLimitedGenMsg (msg : JStr) : Bool :=
  jsIncludes msg lit429 || jsIncludes msg litRateLimited

/-- One update yielded by `streamChat` as consumed by POST /v1/messages
(part_005): `update.type` is `"token"`, `"error"` or `"done"`; any other
update type falls through every `if` and is ignored, modelled by `other`. -/
inductive ChatUpdate
  | token (content : JStr)
  | error (message : JStr)
  | done
  | other
deriving DecidableEq

/-- One upstream attempt as observed by a retry loop: the finite list of
updates the `for await` receives, and optionally the message of an exception
thrown once iteration has drained (a generator that throws mid-iteration is
observationally an `Attempt` with a shorter update list that then throws). -/
structure Attempt where
  updates : List ChatUpdate
  thrown : Option JStr
deriving DecidableEq

/-- Anthropic-style SSE events pushed by the streaming branch of
POST /v1/messages, identified by their builder functions
`evtMessageStart` .. `evtMessageStop` (part_005 lines 113-163); payload
fields not needed by the claims are elided. -/
inductive SSE
  | messageStart
  | contentBlockStart
  | ping
  | contentBlockDelta (text : JStr)
  | contentBlockStop
  | messageDelta (outputTokens : Nat)
  | messageStop
deriving DecidableEq

/-- `true` exactly on `contentBlockDelta` events. -/
def SSE.isDelta : SSE → Bool
  | .contentBlockDelta _ => true
  | _ => false

/-- The bracketed error text `[Error: ${msg}]` used for synthetic deltas. -/
def errorMarker (msg : JStr) : JStr := "[Error: ".data ++ msg ++ "]".data

/-- How one pass over an attempt's updates ended in the streaming branch. -/
inductive ConsumeExit
  | rateLimited
  | fatal
  | succeeded
  | drained
deriving DecidableEq

/-- Transcription of the streaming `for await (const update of streamChat(..))`
body (part_005 lines 218-242): returns the deltas pushed, the token texts
added to `charCount` (in order), and how the iteration ended. A rate-limited
error breaks without pushing; any other error pushes one synthetic
`[Error: ..]` delta; a nonempty token is pushed and counted; `done` breaks
with success. -/
def consumeChat : List ChatUpdate → List SSE × List JStr × ConsumeExit
  | [] => ([], [], .drained)
  | .error m :: _ =>
      if isRateLimitedMsg true m then ([], [], .rateLimited)
      else ([.contentBlockDelta (errorMarker m)], [], .fatal)
  | .token c :: rest =>
      let r := consumeChat rest
      if c.isEmpty then r else (.contentBlockDelta c :: r.1, c :: r.2.1, r.2.2)
  | .done :: _ => ([], [], .succeeded)
  | .other :: rest => consumeChat rest

def noTokensMsgStream : JStr := "No available tokens".data

def allRateLimitedMsgStream : JStr := "All tokens rate limited".data

/-- `excludedTokenIds.length > 0 ? "All tokens rate limited" : "No available tokens"`. -/
def poolMsgStream (excluded : List Nat) : JStr :=
  if excluded.length > 0 then allRateLimitedMsgStream else noTokensMsgStream

/-- Sum of the lengths of a list of strings. -/
def sumLen (ts : List JStr) : Nat := (ts.map List.length).sum

/-- State of the streaming retry loop of POST /v1/messages: the call-scoped
`excludedTokenIds`, `retryCount`, `success` and `charCount` mutables of the
source, plus `delivered`, a ghost log recording (in order) exactly the token
texts whose lengths were added to `charCount` as their deltas were pushed. -/
structure StreamState where
  excluded : List Nat
  retryCount : Nat
  success : Bool
  charCount : Nat
  delivered : List JStr
deriving DecidableEq

/-- The streaming retry loop `while (retryCount < MAX_RETRIES) { ... }`
(part_005 lines 208-255). `pick` models `getRandomToken(db, excludedTokenIds)`
(an id outside the exclusion list, or none); `env k` is the behaviour of the
upstream call made in the k-th loop iteration; `fuel` bounds the number of
iterations, `none` meaning the fuel ran out before the loop finished.
Returns the deltas pushed by the loop and the final state. -/
def loopStream (pick : List Nat → Option Nat) (env : Nat → Attempt) :
    Nat → Nat → StreamState → Option (List SSE × StreamState)
  | 0, _, _ => none
  | fuel + 1, ix, st =>
    if st.retryCount < MAX_RETRIES then
      match pick st.excluded with
      | none => some ([.contentBlockDelta (errorMarker (poolMsgStream st.excluded))], st)
      | some tokId =>
        let att := env ix
        let c := consumeChat att.updates
        let st1 : StreamState :=
          { st with charCount := st.charCount + sumLen c.2.1,
                    delivered := st.delivered ++ c.2.1 }
        match c.2.2 with
        | .rateLimited =>
          match loopStream pick env fuel (ix + 1)
              { st1 with excluded := st1.excluded ++ [tokId],
                         retryCount := st1.retryCount + 1 } with
          | none => none
          | some r => some (c.1 ++ r.1, r.2)
        | .fatal => some (c.1, st1)
        | .succeeded => some (c.1, { st1 with success := true })
        | .drained =>
          match att.thrown with
          | some m =>
            if isRateLimitedMsg false m then
              match loopStream pick env fuel (ix + 1)
                  { st1 with excluded := st1.excluded ++ [tokId],
                             retryCount := st1.retryCount + 1 } with
              | none => none
              | some r => some (c.1 ++ r.1, r.2)
            else some (c.1 ++ [.contentBlockDelta (errorMarker m)], st1)
          | none =>
            match loopStream pick env fuel (ix + 1) st1 with
            | none => none
            | some r => some (c.1 ++ r.1, r.2)
    else some ([], st)

/-- What the streaming branch of POST /v1/messages produced for one call. -/
structure StreamOutcome where
  events : List SSE
  success : Bool
  usageIncrements : Nat
  delivered : List JStr
deriving DecidableEq

def initStreamState : StreamState := ⟨[], 0, false, 0, []⟩

/-- The whole streaming branch of POST /v1/messages (part_005 lines 196-268):
fixed envelope opening, the retry loop, fixed envelope closing carrying
`Math.ceil(charCount / 4)`, then `incrementApiKeyUsage` called exactly when
the loop reached success and the request context carries validated
API-key info. -/
def streamHandler (pick : List Nat → Option Nat) (env : Nat → Attempt)
    (hasApiKeyInfo : Bool) (fuel : Nat) : Option StreamOutcome :=
  match loopStream pick env fuel 0 initStreamState with
  | none => none
  | some r =>
    some { events := [.messageStart, .contentBlockStart, .ping] ++ r.1
             ++ [.contentBlockStop, .messageDelta (jsCeilDiv4 r.2.charCount), .messageStop],
           success := r.2.success,
           usageIncrements := if r.2.success && hasApiKeyInfo then 1 else 0,
           delivered := r.2.delivered }

/-- How one pass over an attempt's updates ended in the non-streaming branch. -/
inductive NsExit
  | rateLimited (msg : JStr)
  | fatal (msg : JStr)
  | succeeded
  | drained
deriving DecidableEq

/-- Transcription of the non-streaming `for await` body (part_005 lines
294-310): accumulated `fullContent` gain and exit. -/
def consumeChatNs : List ChatUpdate → JStr × NsExit
  | [] => ([], .drained)
  | .error m :: _ =>
      if isRateLimitedMsg true m then ([], .rateLimited m) else ([], .fatal m)
  | .token c :: rest =>
      let r := consumeChatNs rest
      if c.isEmpty then r else (c ++ r.1, r.2)
  | .done :: _ => ([], .succeeded)
  | .other :: rest => consumeChatNs rest

/-- The single HTTP response body of the non-streaming branch: either
`{type:"error", error:{type, message}}` with a status, or the assembled
message body with its `usage.output_tokens` value. -/
inductive NsResponse
  | errorResp (status : Nat) (errType : JStr) (message : JStr)
  | messageResp (content : JStr) (outputTokens : Nat)
deriving DecidableEq

/-- Which code path produced the non-streaming response: the no-token branch,
the post-loop `!success` branch, an early 500 return, or the success body. -/
inductive NsEnding
  | poolExhausted
  | retryExhausted
  | fatalUpstream
  | succeeded
deriving DecidableEq

structure NsOutcome where
  response : NsResponse
  ending : NsEnding
  usageIncrements : Nat
deriving DecidableEq

def overloadedErrorType : JStr := "overloaded_error".data

def apiErrorType : JStr := "api_error".data

def failedAfterRetriesMsg : JStr := "Failed after retries".data

def noTokensMsgNs : JStr := "No available tokens".data

def triedMsgNs (n : Nat) : JStr :=
  "All tokens rate limited (tried ".data ++ (Nat.repr n).data ++ ")".data

/-- Message of the non-streaming no-token branch (part_005 lines 287-289). -/
def poolMsgNs (excluded : List Nat) : JStr :=
  if excluded.length > 0 then triedMsgNs excluded.length else noTokensMsgNs

/-- The non-streaming retry loop of POST /v1/messages (part_005 lines
284-346), including the post-loop `!success` response, the success body with
`Math.ceil(fullContent.length / 4)` output tokens, and the conditional
`incrementApiKeyUsage`. Arguments after `fuel`: loop iteration index,
`excludedTokenIds`, `retryCount`, `fullContent`, `lastError`. -/
def nsLoop (pick : List Nat → Option Nat) (env : Nat → Attempt) (hasApiKeyInfo : Bool) :
    Nat → Nat → List Nat → Nat → JStr → JStr → Option NsOutcome
  | 0, _, _, _, _, _ => none
  | fuel + 1, ix, excluded, retryCount, fullContent, lastError =>
    if retryCount < MAX_RETRIES then
      match pick excluded with
      | none =>
        some ⟨.errorResp 529 overloadedErrorType (poolMsgNs excluded), .poolExhausted, 0⟩
      | some tokId =>
        let att := env ix
        let r := consumeChatNs att.updates
        let content := fullContent ++ r.1
        match r.2 with
        | .rateLimited m =>
          nsLoop pick env hasApiKeyInfo fuel (ix + 1) (excluded ++ [tokId])
            (retryCount + 1) content m
        | .fatal m => some ⟨.errorResp 500 apiErrorType m, .fatalUpstream, 0⟩
        | .succeeded =>
          some ⟨.messageResp content (jsCeilDiv4 content.length), .succeeded,
                if hasApiKeyInfo then 1 else 0⟩
        | .drained =>
          match att.thrown with
          | some m =>
            if isRateLimitedMsg false m then
              nsLoop pick env hasApiKeyInfo fuel (ix + 1) (excluded ++ [tokId])
                (retryCount + 1) content m
            else some ⟨.errorResp 500 apiErrorType m, .fatalUpstream, 0⟩
          | none => nsLoop pick env hasApiKeyInfo fuel (ix + 1) excluded retryCount content lastError
    else
      some ⟨.errorResp 529 overloadedErrorType
              (if lastError.isEmpty then failedAfterRetriesMsg else lastError),
            .retryExhausted, 0⟩

/-- The whole non-streaming branch of POST /v1/messages. -/
def nsHandler (pick : List Nat → Option Nat) (env : Nat → Attempt)
    (hasApiKeyInfo : Bool) (fuel : Nat) : Option NsOutcome :=
  nsLoop pick env hasApiKeyInfo fuel 0 [] 0 [] []

/-- Whether a retry loop is still at its head or has exited. -/
inductive Phase
  | looping
  | closed
deriving DecidableEq

/-- Retry state of the streaming /v1/messages loop as seen at loop boundaries:
the exclusion set and the retry counter (`attemptsUsed` in the spec,
`retryCount` in the code). -/
structure MachineState where
  excluded : List Nat
  attemptsUsed : Nat
  phase : Phase
deriving DecidableEq

def initMachine : MachineState := ⟨[], 0, .looping⟩

/-- One iteration of the streaming /v1/messages retry loop as a transition
relation; the constructors correspond one-to-one to the branch taken inside
the loop body: empty pool, the four `consumeChat` exits (with the thrown
variants of the drained case), and the loop-guard exit. -/
inductive StreamStep (pick : List Nat → Option Nat) : MachineState → MachineState → Prop
  | poolEmpty (s : MachineState) :
      s.phase = .looping → s.attemptsUsed < MAX_RETRIES → pick s.excluded = none →
      StreamStep pick s { s with phase := .closed }
  | rotate (s : MachineState) (tokId : Nat) (att : Attempt) :
      s.phase = .looping → s.attemptsUsed < MAX_RETRIES → pick s.excluded = some tokId →
      (consumeChat att.updates).2.2 = .rateLimited →
      StreamStep pick s ⟨s.excluded ++ [tokId], s.attemptsUsed + 1, .looping⟩
  | rotateThrown (s : MachineState) (tokId : Nat) (att : Attempt) (m : JStr) :
      s.phase = .looping → s.attemptsUsed < MAX_RETRIES → pick s.excluded = some tokId →
      (consumeChat att.updates).2.2 = .drained → att.thrown = some m →
      isRateLimitedMsg false m = true →
      StreamStep pick s ⟨s.excluded ++ [tokId], s.attemptsUsed + 1, .looping⟩
  | fatalStop (s : MachineState) (tokId : Nat) (att : Attempt) :
      s.phase = .looping → s.attemptsUsed < MAX_RETRIES → pick s.excluded = some tokId →
      (consumeChat att.updates).2.2 = .fatal →
      StreamStep pick s { s with phase := .closed }
  | succeed (s : MachineState) (tokId : Nat) (att : Attempt) :
      s.phase = .looping → s.attemptsUsed < MAX_RETRIES → pick s.excluded = some tokId →
      (consumeChat att.updates).2.2 = .succeeded →
      StreamStep pick s { s with phase := .closed }
  | fatalThrownStop (s : MachineState) (tokId : Nat) (att : Attempt) (m : JStr) :
      s.phase = .looping → s.attemptsUsed < MAX_RETRIES → pick s.excluded = some tokId →
      (consumeChat att.updates).2.2 = .drained → att.thrown = some m →
      isRateLimitedMsg false m = false →
      StreamStep pick s { s with phase := .closed }
  | drainLoop (s : MachineState) (tokId : Nat) (att : Attempt) :
      s.phase = .looping → s.attemptsUsed < MAX_RETRIES → pick s.excluded = some tokId →
      (consumeChat att.updates).2.2 = .drained → att.thrown = none →
      StreamStep pick s s
  | budgetSpent (s : MachineState) :
      s.phase = .looping → ¬ s.attemptsUsed < MAX_RETRIES →
      StreamStep pick s { s with phase := .closed }

/-- One update yielded by `generateImages` as consumed by
POST /api/imagine/generate (part_004 lines 457-514). -/
inductive GenUpdate
  | error (msg : JStr)
  | image
  | progress (collecting : Bool)
  | done
  | other
deriving DecidableEq

/-- One upstream attempt of the generate loop (cf. `Attempt`). -/
structure GenAttempt where
  updates : List GenUpdate
  thrown : Option JStr
deriving DecidableEq

/-- Named SSE events written by the imagine generate route
(`error` / `info` / `image` / `progress` / `done`); payloads of the
non-error events are elided. -/
inductive GenEvt
  | errorE (msg : JStr)
  | infoE
  | imageE
  | progressE
  | doneE
deriving DecidableEq

/-- How one pass over a generate attempt ended. -/
inductive GenExit
  | rateLimited
  | fatal (msg : JStr)
  | finishedAll
  | needMore
  | drained
deriving DecidableEq

/-- Transcription of the `for await (const update of generateImages(..))` body
(part_004 lines 457-514): given the request target and the count collected so
far, returns the events forwarded (an image update writes an `image` event
then a collecting `progress` event; a progress update is forwarded unless its
status is collecting), the new collected count, and the exit. On `done` the
code closes if `totalCollected >= targetCount` and otherwise breaks to try the
next token. -/
def consumeGen (target : Nat) : Nat → List GenUpdate → List GenEvt × Nat × GenExit
  | tc, [] => ([], tc, .drained)
  | tc, .error m :: _ =>
      if isRateLimitedGenMsg m then ([], tc, .rateLimited) else ([], tc, .fatal m)
  | tc, .image :: rest =>
      let r := consumeGen target (tc + 1) rest
      (.imageE :: .progressE :: r.1, r.2)
  | tc, .progress coll :: rest =>
      let r := consumeGen target tc rest
      if coll then r else (.progressE :: r.1, r.2)
  | tc, .done :: _ =>
      if target ≤ tc then ([], tc, .finishedAll) else ([], tc, .needMore)
  | tc, .other :: rest => consumeGen target tc rest

def noTokensMsgGen : JStr := "No available tokens. Please import tokens first.".data

def triedMsgGen (n : Nat) : JStr :=
  "All tokens rate limited (tried ".data ++ (Nat.repr n).data ++ " tokens)".data

/-- Message of the generate no-token branch (part_004 lines 439-451). -/
def poolMsgGen (excluded : List Nat) : JStr :=
  if excluded.length > 0 then triedMsgGen excluded.length else noTokensMsgGen

/-- Token selection in the generate loop (part_004 lines 429-437): the
caller-pinned token (`getToken(token_id)`, modelled by `pinned`) is consulted
only while `retryCount === 0`; if that yields nothing, a random token
excluding `excludedTokenIds`. -/
def selGen (pinned : Option Nat) (pick : List Nat → Option Nat) (retryCount : Nat)
    (excluded : List Nat) : Option Nat :=
  match (if retryCount = 0 then pinned else none) with
  | some t => some t
  | none => pick excluded

/-- Mutable state of the generate retry loop. -/
structure GenState where
  excluded : List Nat
  retryCount : Nat
  collected : Nat
deriving DecidableEq

/-- The /api/imagine/generate retry loop
`while (retryCount < MAX_RETRIES && totalCollected < targetCount)`
(part_004 lines 427-535). Returns the events written, the final state, and
whether the handler returned from inside the loop (stream already closed, so
the trailing done check is skipped). -/
def genLoop (pick : List Nat → Option Nat) (pinned : Option Nat) (env : Nat → GenAttempt)
    (target : Nat) : Nat → Nat → GenState → Option (List GenEvt × GenState × Bool)
  | 0, _, _ => none
  | fuel + 1, ix, st =>
    if st.retryCount < MAX_RETRIES ∧ st.collected < target then
      match selGen pinned pick st.retryCount st.excluded with
      | none => some ([.errorE (poolMsgGen st.excluded)], st, false)
      | some tokId =>
        let att := env ix
        let r := consumeGen target st.collected att.updates
        let st1 : GenState := { st with collected := r.2.1 }
        match r.2.2 with
        | .rateLimited =>
          match genLoop pick pinned env target fuel (ix + 1)
              { st1 with excluded := st1.excluded ++ [tokId],
                         retryCount := st1.retryCount + 1 } with
          | none => none
          | some q => some (r.1 ++ .infoE :: q.1, q.2)
        | .fatal m => some (r.1 ++ [.errorE m], st1, true)
        | .finishedAll => some (r.1 ++ [.doneE], st1, true)
        | .needMore =>
          match genLoop pick pinned env target fuel (ix + 1) st1 with
          | none => none
          | some q => some (r.1 ++ q.1, q.2)
        | .drained =>
          match att.thrown with
          | some m =>
            if isRateLimitedGenMsg m then
              match genLoop pick pinned env target fuel (ix + 1)
                  { st1 with excluded := st1.excluded ++ [tokId],
                             retryCount := st1.retryCount + 1 } with
              | none => none
              | some q => some (r.1 ++ .infoE :: q.1, q.2)
            else some (r.1 ++ [.errorE m], st1, false)
          | none =>
            match genLoop pick pinned env target fuel (ix + 1) st1 with
            | none => none
            | some q => some (r.1 ++ q.1, q.2)
    else some ([], st, false)

/-- The whole /api/imagine/generate background task: the retry loop followed
by the trailing `if (totalCollected > 0) writeEvent done` (part_004
lines 537-541). -/
def genRun (pick : List Nat → Option Nat) (pinned : Option Nat) (env : Nat → GenAttempt)
    (target fuel : Nat) : Option (List GenEvt) :=
  match genLoop pick pinned env target fuel 0 ⟨[], 0, 0⟩ with
  | none => none
  | some q =>
    if q.2.2 then some q.1
    else some (q.1 ++ (if 0 < q.2.1.collected then [.doneE] else []))

/-- Retry state of the generate loop as seen at loop boundaries. -/
structure GenMachineState where
  excluded : List Nat
  attemptsUsed : Nat
  collected : Nat
  phase : Phase
deriving DecidableEq

def initGenMachine : GenMachineState := ⟨[], 0, 0, .looping⟩

/-- One iteration of the /api/imagine/generate retry loop as a transition
relation (cf. `StreamStep`); rate-limit classification and the
`done`-with-enough / `done`-needing-more distinction follow `consumeGen`. -/
inductive GenStep (pick : List Nat → Option Nat) (pinned : Option Nat) (target : Nat) :
    GenMachineState → GenMachineState → Prop
  | poolEmpty (s : GenMachineState) :
      s.phase = .looping → s.attemptsUsed < MAX_RETRIES → s.collected < target →
      selGen pinned pick s.attemptsUsed s.excluded = none →
      GenStep pick pinned target s { s with phase := .closed }
  | rotate (s : GenMachineState) (tokId : Nat) (att : GenAttempt) :
      s.phase = .looping → s.attemptsUsed < MAX_RETRIES → s.collected < target →
      selGen pinned pick s.attemptsUsed s.excluded = some tokId →
      (consumeGen target s.collected att.updates).2.2 = .rateLimited →
      GenStep pick pinned target s
        ⟨s.excluded ++ [tokId], s.attemptsUsed + 1,
         (consumeGen target s.collected att.updates).2.1, .looping⟩
  | rotateThrown (s : GenMachineState) (tokId : Nat) (att : GenAttempt) (m : JStr) :
      s.phase = .looping → s.attemptsUsed < MAX_RETRIES → s.collected < target →
      selGen pinned pick s.attemptsUsed s.excluded = some tokId →
      (consumeGen target s.collected att.updates).2.2 = .drained →
      att.thrown = some m → isRateLimitedGenMsg m = true →
      GenStep pick pinned target s
        ⟨s.excluded ++ [tokId], s.attemptsUsed + 1,
         (consumeGen target s.collected att.updates).2.1, .looping⟩
  | fatalStop (s : GenMachineState) (tokId : Nat) (att : GenAttempt) (m : JStr) :
      s.phase = .looping → s.attemptsUsed < MAX_RETRIES → s.collected < target →
      selGen pinned pick s.attemptsUsed s.excluded = some tokId →
      (consumeGen target s.collected att.updates).2.2 = .fatal m →
      GenStep pick pinned target s
        { s with collected := (consumeGen target s.collected att.updates).2.1,
                 phase := .closed }
  | allDone (s : GenMachineState) (tokId : Nat) (att : GenAttempt) :
      s.phase = .looping → s.attemptsUsed < MAX_RETRIES → s.collected < target →
      selGen pinned pick s.attemptsUsed s.excluded = some tokId →
      (consumeGen target s.collected att.updates).2.2 = .finishedAll →
      GenStep pick pinned target s
        { s with collected := (consumeGen target s.collected att.updates).2.1,
                 phase := .closed }
  | needMoreLoop (s : GenMachineState) (tokId : Nat) (att : GenAttempt) :
      s.phase = .looping → s.attemptsUsed < MAX_RETRIES → s.collected < target →
      selGen pinned pick s.attemptsUsed s.excluded = some tokId →
      (consumeGen target s.collected att.updates).2.2 = .needMore →
      GenStep pick pinned target s
        { s with collected := (consumeGen target s.collected att.updates).2.1 }
  | fatalThrownStop (s : GenMachineState) (tokId : Nat) (att : GenAttempt) (m : JStr) :
      s.phase = .looping → s.attemptsUsed < MAX_RETRIES → s.collected < target →
      selGen pinned pick s.attemptsUsed s.excluded = some tokId →
      (consumeGen target s.collected att.updates).2.2 = .drained →
      att.thrown = some m → isRateLimitedGenMsg m = false →
      GenStep pick pinned target s
        { s with collected := (consumeGen target s.collected att.updates).2.1,
                 phase := .closed }
  | drainLoop (s : GenMachineState) (tokId : Nat) (att : GenAttempt) :
      s.phase = .looping → s.attemptsUsed < MAX_RETRIES → s.collected < target →
      selGen pinned pick s.attemptsUsed s.excluded = some tokId →
      (consumeGen target s.collected att.updates).2.2 = .drained → att.thrown = none →
      GenStep pick pinned target s
        { s with collected := (consumeGen target s.collected att.updates).2.1 }
  | guardStop (s : GenMachineState) :
      s.phase = .looping → ¬ (s.attemptsUsed < MAX_RETRIES ∧ s.collected < target) →
      GenStep pick pinned target s { s with phase := .closed }

/-- A decoded upstream line as interpreted by the `streamImageEdit` loop
(part_004 lines 276-340): a parsed JSON document either has no
`result.response`, or carries a `streamingImageGenerationResponse` (handled
first, with `continue`), or is handled for image urls. In the last case
`modelUrls` is `collectImages(resp.modelResponse)` when `modelResponse` is
present, and `directUrls` is `collectImages(resp)`. -/
inductive EditFrame
  | noResponse
  | progressFrame (index pct : Nat)
  | dataFrame (modelUrls : Option (List JStr)) (directUrls : List JStr)
deriving DecidableEq

/-- Events yielded downstream by `streamImageEdit` (debug events elided). -/
inductive EditEvt
  | progressEvt (index pct : Nat)
  | imageEvt (url : JStr) (index : Nat)
deriving DecidableEq

/-- The dedup-and-yield loop
`if (!collectedUrls.includes(url)) { collectedUrls.push(url); yield {type:"image", url, index: collectedUrls.length - 1} }`
run over one list of candidate urls (part_004 lines 316-325 and 330-340). -/
def emitNew : List JStr → List JStr → List JStr × List EditEvt
  | collected, [] => (collected, [])
  | collected, u :: rest =>
    if u ∈ collected then emitNew collected rest
    else
      let r := emitNew (collected ++ [u]) rest
      (r.1, .imageEvt u collected.length :: r.2)

/-- Processing of one decoded line in `streamImageEdit`: a progress frame
yields one progress event and continues; otherwise urls collected from
`modelResponse` and then urls collected from the whole response object are
deduplicated against the shared `collectedUrls` and yielded in order. -/
def editFrameStep (collected : List JStr) : EditFrame → List JStr × List EditEvt
  | .noResponse => (collected, [])
  | .progressFrame i p => (collected, [.progressEvt i p])
  | .dataFrame mr direct =>
    let r1 := emitNew collected (mr.getD [])
    let r2 := emitNew r1.1 direct
    (r2.1, r1.2 ++ r2.2)

/-- The decode loop over a whole sequence of decoded frames, threading the
call-scoped `collectedUrls` accumulator. -/
def editRunFrames : List JStr → List EditFrame → List JStr × List EditEvt
  | collected, [] => (collected, [])
  | collected, f :: rest =>
    let r := editFrameStep collected f
    let q := editRunFrames r.1 rest
    (q.1, r.2 ++ q.2)

/-- Events yielded by one `streamImageEdit` call for a given frame sequence. -/
def editEvents (frames : List EditFrame) : List EditEvt := (editRunFrames [] frames).2

/-- The urls of the image events of an event sequence, in order. -/
def imageUrlsOf (es : List EditEvt) : List JStr :=
  es.filterMap fun e =>
    match e with
    | .imageEvt u _ => some u
    | _ => none

/-- All candidate urls one frame surfaces, in the order the loop scans them. -/
def frameUrls : EditFrame → List JStr
  | .dataFrame mr direct => mr.getD [] ++ direct
  | _ => []

/-- All candidate urls of a frame sequence in discovery order (with
multiplicity, i.e. before any deduplication). -/
def discoveredUrls (frames : List EditFrame) : List JStr := (frames.map frameUrls).flatten

/-- First-occurrence filter: keeps each url the first time it appears and is
not already in `seen`; the specification-side counterpart of the
`collectedUrls` discipline. -/
def firstOccur (seen : List JStr) : List JStr → List JStr
  | [] => []
  | u :: rest => if u ∈ seen then firstOccur seen rest else u :: firstOccur (seen ++ [u]) rest

/-- One upstream attempt of the img2img route (part_004 lines 900-998): the
upload step either throws with a message, or succeeds and `streamImageEdit`
either yields a dispatch error update (network failure, non-2xx status,
missing body — all before any decoding), or decodes `frames` having scanned
`lineCount` nonblank lines and optionally throws after its decoded updates
(a generator that throws mid-decode is one with fewer frames that then
throws). -/
inductive EditAttempt
  | uploadThrow (msg : JStr)
  | dispatchError (msg : JStr)
  | streamed (frames : List EditFrame) (lineCount : Nat) (thrown : Option JStr)
deriving DecidableEq

/-- Named SSE events the img2img route writes to the client (payloads of the
non-image events and all debug events elided; image events keep their url). -/
inductive ImgEvt
  | errorE (msg : JStr)
  | infoE
  | imageE (url : JStr)
  | progressE
  | doneE
deriving DecidableEq

/-- `No images generated (parsed ${lineCount} lines)` (part_004 line 356),
the terminal error update of a streamImageEdit call that collected nothing. -/
def noImagesMsg (lineCount : Nat) : JStr :=
  "No images generated (parsed ".data ++ (Nat.repr lineCount).data ++ " lines)".data

/-- The img2img route's forwarding of streamImageEdit's decoded updates: an
image update is forwarded as an image event followed by a collecting-progress
event (part_004 lines 964-984), a progress update as a progress event. -/
def routeEventsOfEdit : List EditEvt → List ImgEvt
  | [] => []
  | EditEvt.progressEvt _ _ :: rest => ImgEvt.progressE :: routeEventsOfEdit rest
  | EditEvt.imageEvt u _ :: rest =>
      ImgEvt.imageE u :: ImgEvt.progressE :: routeEventsOfEdit rest

/-- The /api/imagine/img2img retry loop `while (retryCount < MAX_RETRIES)`
(part_004 lines 875-1018). Per attempt: one uploading-progress event, the
upload (whose exception goes to the catch block), one generating-progress
event, then the streamImageEdit updates. `collectedUrls` lives inside
`streamImageEdit`, so each attempt decodes its frames with a fresh
accumulator (`editEvents`). A rate-limited error update or exception
(`msg.includes("429") || msg.includes("Rate limited")`) excludes the
credential, writes an info event and retries; any other error update or
exception writes an error event and ends the call; after the decoded updates
a zero-collection attempt yields the no-images error update and a nonempty
one yields `done`, ending the call with a done event. Returns the events
written, `none` when the fuel runs out first. -/
def img2imgLoop (pick : List Nat → Option Nat) (pinned : Option Nat)
    (env : Nat → EditAttempt) : Nat → Nat → List Nat → Nat → Option (List ImgEvt)
  | 0, _, _, _ => none
  | fuel + 1, ix, excluded, retryCount =>
    if retryCount < MAX_RETRIES then
      match selGen pinned pick retryCount excluded with
      | none => some [ImgEvt.errorE (poolMsgGen excluded)]
      | some tokId =>
        match env ix with
        | .uploadThrow m =>
          if isRateLimitedGenMsg m then
            match img2imgLoop pick pinned env fuel (ix + 1) (excluded ++ [tokId])
                (retryCount + 1) with
            | none => none
            | some q => some (ImgEvt.progressE :: ImgEvt.infoE :: q)
          else some [ImgEvt.progressE, ImgEvt.errorE m]
        | .dispatchError m =>
          if isRateLimitedGenMsg m then
            match img2imgLoop pick pinned env fuel (ix + 1) (excluded ++ [tokId])
                (retryCount + 1) with
            | none => none
            | some q => some (ImgEvt.progressE :: ImgEvt.progressE :: ImgEvt.infoE :: q)
          else some [ImgEvt.progressE, ImgEvt.progressE, ImgEvt.errorE m]
        | .streamed frames lineCount thrown =>
          let pre := ImgEvt.progressE :: ImgEvt.progressE
            :: routeEventsOfEdit (editEvents frames)
          match thrown with
          | some m =>
            if isRateLimitedGenMsg m then
              match img2imgLoop pick pinned env fuel (ix + 1) (excluded ++ [tokId])
                  (retryCount + 1) with
              | none => none
              | some q => some (pre ++ ImgEvt.infoE :: q)
            else some (pre ++ [ImgEvt.errorE m])
          | none =>
            if (imageUrlsOf (editEvents frames)).isEmpty then
              if isRateLimitedGenMsg (noImagesMsg lineCount) then
                match img2imgLoop pick pinned env fuel (ix + 1) (excluded ++ [tokId])
                    (retryCount + 1) with
                | none => none
                | some q => some (pre ++ ImgEvt.infoE :: q)
              else some (pre ++ [ImgEvt.errorE (noImagesMsg lineCount)])
            else some (pre ++ [ImgEvt.doneE])
    else some []

/-- The whole img2img background task over one client request. -/
def img2imgRun (pick : List Nat → Option Nat) (pinned : Option Nat)
    (env : Nat → EditAttempt) (fuel : Nat) : Option (List ImgEvt) :=
  img2imgLoop pick pinned env fuel 0 [] 0

/-- An upstream whose first attempt surfaces one url and then throws with a
rate-limit marker, and whose second attempt surfaces the same url and
completes. -/
def dupEditEnv : Nat → EditAttempt :=
  fun k =>
    if k = 0 then .streamed [EditFrame.dataFrame none [['u']]] 1 (some lit429)
    else .streamed [EditFrame.dataFrame none [['u']]] 1 none

/-- Model of `buffer.split("\n")`: the (always nonempty) list of segments. -/
def splitNl : List Char → List (List Char)
  | [] => [[]]
  | c :: rest =>
    if c = '\n' then [] :: splitNl rest
    else (c :: (splitNl rest).headD []) :: (splitNl rest).tail

/-- One `reader.read()` iteration of the decode loop (part_003 lines 203-251):
append the chunk to the carried buffer, split on newlines, treat all but the
last segment as complete lines and carry the last segment over as the new
buffer (`buffer = lines.pop() || ""`). `acc.1` is the list of complete lines
handed to the line handler so far, `acc.2` the buffer. -/
def feedChunk (acc : List (List Char) × List Char) (chunk : List Char) :
    List (List Char) × List Char :=
  let parts := splitNl (acc.2 ++ chunk)
  (acc.1 ++ parts.dropLast, parts.getLastD [])

/-- Running the decode loop over a whole chunk sequence, starting from an
empty buffer. -/
def feedAll (chunks : List (List Char)) : List (List Char) × List Char :=
  chunks.foldl feedChunk ([], [])

/-- Emptiness of `line.trim()` (`if (!line.trim()) continue`): every
character is whitespace. -/
def isBlank (l : List Char) : Bool :=
  l.all fun c => c == ' ' || c == '\t' || c == '\r' || c == '\n'

/-- The frames decoded from a list of complete lines: blank lines are
skipped before parsing, a line that parses contributes its frame, and a line
on which `JSON.parse` throws is skipped by the `catch {}` without yielding
anything and without stopping the loop. `parse` models `JSON.parse` composed
with the frame interpretation (`none` = exception or unusable document). -/
def decodedFrames (parse : List Char → Option EditFrame) (lines : List (List Char)) :
    List EditFrame :=
  lines.filterMap fun l => if isBlank l then none else parse l

/-- `https://assets.grok.com/`, the only prefix the image proxy forwards. -/
def assetHost : JStr := "https://assets.grok.com/".data

/-- Outcome of GET /api/imagine/proxy: a 400 rejection, a 503 when no
credential exists, or an upstream fetch of the given url carrying credential
cookies. -/
inductive ProxyResult
  | badRequest (msg : JStr)
  | noTokens
  | fetched (url : JStr)
deriving DecidableEq

def missingUrlMsg : JStr := "Missing url parameter".data

def invalidUrlMsg : JStr := "Invalid URL".data

/-- GET /api/imagine/proxy (part_004 lines 1035-1050): a missing or empty
`url` query parameter is a 400; a url that does not start with the asset-host
prefix is a 400; only then is a credential chosen and the url fetched with
auth cookies. -/
def proxyHandler (urlParam : Option JStr) (hasToken : Bool) : ProxyResult :=
  match urlParam with
  | none => .badRequest missingUrlMsg
  | some url =>
    if url.isEmpty then .badRequest missingUrlMsg
    else if assetHost.isPrefixOf url then
      if hasToken then .fetched url else .noTokens
    else .badRequest invalidUrlMsg

/-- The `imageGenerationCount` field of the upstream chat payload built by
`streamImageEdit` equals its `imageCount` parameter (part_004 line 197). -/
def payloadImageGenerationCount (imageCount : Nat) : Nat := imageCount

/-- The per-attempt count the img2img route passes to `streamImageEdit`:
`Math.min(count, 4)` (part_004 line 946). -/
def img2imgUpstreamCount (count : Nat) : Nat := min count 4

/-- The `imageGenerationCount` actually sent upstream for a client request
asking for `count` images. -/
def img2imgPayloadCount (count : Nat) : Nat :=
  payloadImageGenerationCount (img2imgUpstreamCount count)

/-- The `target_count` reported in the img2img collecting progress events:
`Math.min(count, 4)` (part_004 line 983). -/
def img2imgProgressTarget (count : Nat) : Nat := min count 4

/-- A credential store with no candidate for any exclusion list. -/
def noPick : List Nat → Option Nat := fun _ => none

/-- A pool that always offers a fresh credential id. -/
def freshPick : List Nat → Option Nat := fun ex => some ex.length

/-- An upstream that never yields and never throws. -/
def emptyGenEnv : Nat → GenAttempt := fun _ => ⟨[], none⟩

/-- A chat upstream whose every attempt immediately reports a rate limit. -/
def rlChatEnv : Nat → Attempt := fun _ => ⟨[ChatUpdate.error lit429], none⟩

/-- A chat attempt that yields one token and then a fatal upstream error. -/
def fatalChatEnv : Nat → Attempt :=
  fun _ => ⟨[ChatUpdate.token ['h', 'i'], ChatUpdate.error ['b', 'o', 'o', 'm']], none⟩

/-- A chat attempt that yields two tokens and completes. -/
def okChatEnv : Nat → Attempt :=
  fun _ => ⟨[ChatUpdate.token ['h', 'i'], ChatUpdate.token ['y', 'o', 'u'], ChatUpdate.done], none⟩

/-- The outcome of the streaming handler on `fatalChatEnv` with one attempt. -/
def fatalOutcome : StreamOutcome :=
  { events := [SSE.messageStart, SSE.contentBlockStart, SSE.ping,
               SSE.contentBlockDelta ['h', 'i'],
               SSE.contentBlockDelta (errorMarker ['b', 'o', 'o', 'm']),
               SSE.contentBlockStop, SSE.messageDelta 1, SSE.messageStop],
    success := false, usageIncrements := 0, delivered := [['h', 'i']] }

/-- The outcome of the streaming handler on `okChatEnv` with one attempt. -/
def okStreamOutcome : StreamOutcome :=
  { events := [SSE.messageStart, SSE.contentBlockStart, SSE.ping,
               SSE.contentBlockDelta ['h', 'i'],
               SSE.contentBlockDelta ['y', 'o', 'u'],
               SSE.contentBlockStop, SSE.messageDelta 2, SSE.messageStop],
    success := true, usageIncrements := 1, delivered := [['h', 'i'], ['y', 'o', 'u']] }

/-- The outcome of the non-streaming handler on `okChatEnv` with one attempt. -/
def okNsOutcome : NsOutcome :=
  ⟨NsResponse.messageResp ['h', 'i', 'y', 'o', 'u'] 2, NsEnding.succeeded, 1⟩

/-- The outcome of the non-streaming handler with an empty credential pool. -/
def poolNsOutcome : NsOutcome :=
  ⟨NsResponse.errorResp 529 overloadedErrorType noTokensMsgNs, NsEnding.poolExhausted, 0⟩

/-- A url under the allowed asset-host prefix. -/
def goodUrl : JStr := "https://assets.grok.com/users/a/b/content".data

/-- A sample line parser that accepts exactly the line `ok`. -/
def parseSample : List Char → Option EditFrame :=
  fun l => if l = ['o', 'k'] then some EditFrame.noResponse else none

/-- Every state reachable from `init` satisfies any invariant true initially
and preserved by each step of the relation. -/
theorem reach_invariant {σ : Type} (step : σ → σ → Prop) (inv : σ → Prop) (init : σ)
    (h0 : inv init) (hs : ∀ a b, inv a → step a b → inv b) :
    ∀ s, Relation.ReflTransGen step init s → inv s := by
  intro s h
  induction h with
  | refl => exact h0
  | tail hab hbc ih => exact hs _ _ ih hbc

/-- C1: in both failover loops (the streaming /v1/messages loop and the
/api/imagine/generate loop) the retry counter `attemptsUsed` starts at 0, is
only ever incremented together with excluding the current credential and only
under the loop guard `retryCount < MAX_RETRIES`, so every reachable state
satisfies `attemptsUsed <= 5`, with the exclusion list's length equal to the
number of rotations performed. -/
theorem C1_retry_ceiling :
    (∀ (pick : List Nat → Option Nat) (s : MachineState),
        Relation.ReflTransGen (StreamStep pick) initMachine s →
        s.attemptsUsed ≤ MAX_RETRIES ∧ s.excluded.length = s.attemptsUsed) ∧
    (∀ (pick : List Nat → Option Nat) (pinned : Option Nat) (target : Nat)
        (s : GenMachineState),
        Relation.ReflTransGen (GenStep pick pinned target) initGenMachine s →
        s.attemptsUsed ≤ MAX_RETRIES ∧ s.excluded.length = s.attemptsUsed) := by
  constructor
  · intro pick s h
    refine reach_invariant (StreamStep pick)
      (fun t => t.attemptsUsed ≤ MAX_RETRIES ∧ t.excluded.length = t.attemptsUsed)
      initMachine ⟨by decide, rfl⟩ ?_ s h
    rintro a b ⟨hle, hlen⟩ hstep
    cases hstep <;>
      simp_all [MAX_RETRIES, List.length_append] <;> omega
  · intro pick pinned target s h
    refine reach_invariant (GenStep pick pinned target)
      (fun t => t.attemptsUsed ≤ MAX_RETRIES ∧ t.excluded.length = t.attemptsUsed)
      initGenMachine ⟨by decide, rfl⟩ ?_ s h
    rintro a b ⟨hle, hlen⟩ hstep
    cases hstep <;>
      simp_all [MAX_RETRIES, List.length_append] <;> omega

/-- C1 witness: with a pool that always offers a fresh credential and an
upstream that immediately reports a rate limit on every attempt, the loop is
driven through five rotations and then stops; the state reached satisfies the
invariant. -/
theorem C1_retry_ceiling_witness :
    (⟨[0, 1, 2, 3, 4], 5, Phase.closed⟩ : MachineState).attemptsUsed ≤ MAX_RETRIES ∧
    (⟨[0, 1, 2, 3, 4], 5, Phase.closed⟩ : MachineState).excluded.length =
      (⟨[0, 1, 2, 3, 4], 5, Phase.closed⟩ : MachineState).attemptsUsed := by
  have h1 : StreamStep freshPick ⟨[], 0, .looping⟩ ⟨[0], 1, .looping⟩ :=
    StreamStep.rotate ⟨[], 0, .looping⟩ 0 (rlChatEnv 0) rfl (by decide) (by decide) (by decide)
  have h2 : StreamStep freshPick ⟨[0], 1, .looping⟩ ⟨[0, 1], 2, .looping⟩ :=
    StreamStep.rotate ⟨[0], 1, .looping⟩ 1 (rlChatEnv 0) rfl (by decide) (by decide) (by decide)
  have h3 : StreamStep freshPick ⟨[0, 1], 2, .looping⟩ ⟨[0, 1, 2], 3, .looping⟩ :=
    StreamStep.rotate ⟨[0, 1], 2, .looping⟩ 2 (rlChatEnv 0) rfl (by decide) (by decide)
      (by decide)
  have h4 : StreamStep freshPick ⟨[0, 1, 2], 3, .looping⟩ ⟨[0, 1, 2, 3], 4, .looping⟩ :=
    StreamStep.rotate ⟨[0, 1, 2], 3, .looping⟩ 3 (rlChatEnv 0) rfl (by decide) (by decide)
      (by decide)
  have h5 : StreamStep freshPick ⟨[0, 1, 2, 3], 4, .looping⟩ ⟨[0, 1, 2, 3, 4], 5, .looping⟩ :=
    StreamStep.rotate ⟨[0, 1, 2, 3], 4, .looping⟩ 4 (rlChatEnv 0) rfl (by decide) (by decide)
      (by decide)
  have h6 : StreamStep freshPick ⟨[0, 1, 2, 3, 4], 5, .looping⟩ ⟨[0, 1, 2, 3, 4], 5, .closed⟩ :=
    StreamStep.budgetSpent ⟨[0, 1, 2, 3, 4], 5, .looping⟩ rfl (by decide)
  exact C1_retry_ceiling.1 freshPick _
    (Relation.ReflTransGen.tail
      (Relation.ReflTransGen.tail
        (Relation.ReflTransGen.tail
          (Relation.ReflTransGen.tail
            (Relation.ReflTransGen.tail
              (Relation.ReflTransGen.tail Relation.ReflTransGen.refl h1) h2) h3) h4) h5) h6)

/-- C9: the image proxy enforces the asset-host allow-list: a fetch with
credential cookies happens only for a supplied url that starts with
`https://assets.grok.com/`; a missing url, an empty url, or a url outside the
prefix is answered with a 400 and no upstream fetch is performed. -/
theorem C9_proxy_allowlist :
    (∀ (u : Option JStr) (hasToken : Bool) (url : JStr),
        proxyHandler u hasToken = ProxyResult.fetched url →
        assetHost.isPrefixOf url = true ∧ u = some url) ∧
    (∀ (url : JStr) (hasToken : Bool), assetHost.isPrefixOf url = false →
        ∃ m, proxyHandler (some url) hasToken = ProxyResult.badRequest m) ∧
    (∀ hasToken : Bool, proxyHandler none hasToken = ProxyResult.badRequest missingUrlMsg) := by
  refine ⟨?_, ?_, fun _ => rfl⟩
  · intro u hT url h
    cases u with
    | none => simp [proxyHandler] at h
    | some v =>
      by_cases hv : v.isEmpty
      · simp [proxyHandler, hv] at h
      · by_cases hp : assetHost.isPrefixOf v
        · cases hT with
          | false => simp [proxyHandler, hv, hp] at h
          | true =>
            simp only [proxyHandler, hv, hp, Bool.false_eq_true, if_false, if_true] at h
            cases h
            exact ⟨hp, rfl⟩
        · simp [proxyHandler, hv, hp] at h
  · intro url hT h
    by_cases hv : url.isEmpty
    · exact ⟨missingUrlMsg, by simp [proxyHandler, hv]⟩
    · exact ⟨invalidUrlMsg, by simp [proxyHandler, hv, h]⟩

/-- C9 witness: the concrete asset url is fetched (and satisfies the prefix),
while a concrete non-asset url is rejected with a 400. -/
theorem C9_proxy_allowlist_witness :
    (assetHost.isPrefixOf goodUrl = true ∧ some goodUrl = some goodUrl) ∧
    (∃ m, proxyHandler (some ['h', 'a']) true = ProxyResult.badRequest m) :=
  ⟨C9_proxy_allowlist.1 (some goodUrl) true goodUrl (by decide),
   C9_proxy_allowlist.2.1 ['h', 'a'] true (by decide)⟩

/-- C10: the img2img route clamps the client-requested image count: the
`imageGenerationCount` sent upstream per attempt and the progress
`target_count` both equal `min count 4`, so more than 4 images per attempt
are never requested. -/
theorem C10_img2img_clamp (count : Nat) :
    img2imgPayloadCount count = min count 4 ∧
    img2imgPayloadCount count ≤ 4 ∧
    img2imgProgressTarget count = img2imgPayloadCount count :=
  ⟨rfl, Nat.min_le_right count 4, rfl⟩

/-- An SSE event satisfies `isDelta` exactly when it is a `contentBlockDelta`. -/
theorem isDelta_iff (e : SSE) : e.isDelta = true ↔ ∃ t, e = SSE.contentBlockDelta t := by
  cases e <;> simp [SSE.isDelta]

theorem sumLen_append (a b : List JStr) : sumLen (a ++ b) = sumLen a + sumLen b := by
  simp [sumLen]

/-- Every event pushed by the streaming inner consume loop is a delta. -/
theorem consumeChat_deltas (us : List ChatUpdate) :
    ∀ e ∈ (consumeChat us).1, e.isDelta = true := by
  induction us with
  | nil => simp [consumeChat]
  | cons u rest ih =>
    cases u with
    | token c =>
      by_cases hc : c.isEmpty
      · simpa [consumeChat, hc] using ih
      · intro e he
        simp only [consumeChat, hc] at he
        rcases List.mem_cons.mp he with rfl | he
        · rfl
        · exact ih e he
    | error m =>
      by_cases hm : isRateLimitedMsg true m <;> simp [consumeChat, hm, SSE.isDelta]
    | done => simp [consumeChat]
    | other => simpa [consumeChat] using ih

/-- Every token text the streaming consume loop counts is pushed as a delta. -/
theorem consumeChat_texts (us : List ChatUpdate) :
    ∀ tx ∈ (consumeChat us).2.1, SSE.contentBlockDelta tx ∈ (consumeChat us).1 := by
  induction us with
  | nil => simp [consumeChat]
  | cons u rest ih =>
    cases u with
    | token c =>
      by_cases hc : c.isEmpty
      · simpa [consumeChat, hc] using ih
      · intro tx htx
        simp only [consumeChat, hc] at htx ⊢
        rcases List.mem_cons.mp htx with rfl | htx
        · exact List.mem_cons_self _ _
        · exact List.mem_cons_of_mem _ (ih tx htx)
    | error m =>
      by_cases hm : isRateLimitedMsg true m <;> simp [consumeChat, hm]
    | done => simp [consumeChat]
    | other => simpa [consumeChat] using ih

/-- Combined facts about the streaming retry loop: it only pushes deltas, it
keeps `charCount` equal to the summed length of the `delivered` log, and
every text it logs is pushed as a delta (unless it was logged before entry). -/
theorem loopStream_spec (pick : List Nat → Option Nat) (env : Nat → Attempt) :
    ∀ (fuel ix : Nat) (st : StreamState) (r : List SSE × StreamState),
      loopStream pick env fuel ix st = some r →
      (∀ e ∈ r.1, e.isDelta = true) ∧
      (st.charCount = sumLen st.delivered → r.2.charCount = sumLen r.2.delivered) ∧
      (∀ tx ∈ r.2.delivered, tx ∈ st.delivered ∨ SSE.contentBlockDelta tx ∈ r.1) := by
  intro fuel
  induction fuel with
  | zero => intro ix st r h; simp [loopStream] at h
  | succ fuel ih =>
    intro ix st r h
    simp only [loopStream] at h
    split at h
    case isTrue hguard =>
      split at h
      case h_1 heq =>
        cases h
        refine ⟨by simp [SSE.isDelta], fun hc => hc, fun tx htx => Or.inl htx⟩
      case h_2 tokId heq =>
        split at h
        case h_1 hexit =>
          split at h
          case h_1 hrec => exact absurd h (by simp)
          case h_2 r0 hrec =>
            cases h
            obtain ⟨ha, hb, hcm⟩ := ih _ _ _ hrec
            refine ⟨?_, ?_, ?_⟩
            · intro e he
              rcases List.mem_append.mp he with he | he
              · exact consumeChat_deltas _ e he
              · exact ha e he
            · intro hinv
              exact hb (by simp [sumLen_append, hinv])
            · intro tx htx
              rcases hcm tx htx with htx | htx
              · rcases List.mem_append.mp htx with htx | htx
                · exact Or.inl htx
                · exact Or.inr (List.mem_append.mpr (Or.inl (consumeChat_texts _ tx htx)))
              · exact Or.inr (List.mem_append.mpr (Or.inr htx))
        case h_2 hexit =>
          cases h
          refine ⟨consumeChat_deltas _, ?_, ?_⟩
          · intro hinv; simp [sumLen_append, hinv]
          · intro tx htx
            rcases List.mem_append.mp htx with htx | htx
            · exact Or.inl htx
            · exact Or.inr (consumeChat_texts _ tx htx)
        case h_3 hexit =>
          cases h
          refine ⟨consumeChat_deltas _, ?_, ?_⟩
          · intro hinv; simp [sumLen_append, hinv]
          · intro tx htx
            rcases List.mem_append.mp htx with htx | htx
            · exact Or.inl htx
            · exact Or.inr (consumeChat_texts _ tx htx)
        case h_4 hexit =>
          split at h
          case h_1 m hthrown =>
            split at h
            case isTrue hrl =>
              split at h
              case h_1 hrec => exact absurd h (by simp)
              case h_2 r0 hrec =>
                cases h
                obtain ⟨ha, hb, hcm⟩ := ih _ _ _ hrec
                refine ⟨?_, ?_, ?_⟩
                · intro e he
                  rcases List.mem_append.mp he with he | he
                  · exact consumeChat_deltas _ e he
                  · exact ha e he
                · intro hinv
                  exact hb (by simp [sumLen_append, hinv])
                · intro tx htx
                  rcases hcm tx htx with htx | htx
                  · rcases List.mem_append.mp htx with htx | htx
                    · exact Or.inl htx
                    · exact Or.inr (List.mem_append.mpr (Or.inl (consumeChat_texts _ tx htx)))
                  · exact Or.inr (List.mem_append.mpr (Or.inr htx))
            case isFalse hrl =>
              cases h
              refine ⟨?_, ?_, ?_⟩
              · intro e he
                rcases List.mem_append.mp he with he | he
                · exact consumeChat_deltas _ e he
                · simp only [List.mem_singleton] at he
                  subst he; rfl
              · intro hinv; simp [sumLen_append, hinv]
              · intro tx htx
                rcases List.mem_append.mp htx with htx | htx
                · exact Or.inl htx
                · exact Or.inr (List.mem_append.mpr (Or.inl (consumeChat_texts _ tx htx)))
          case h_2 hthrown =>
            split at h
            case h_1 hrec => exact absurd h (by simp)
            case h_2 r0 hrec =>
              cases h
              obtain ⟨ha, hb, hcm⟩ := ih _ _ _ hrec
              refine ⟨?_, ?_, ?_⟩
              · intro e he
                rcases List.mem_append.mp he with he | he
                · exact consumeChat_deltas _ e he
                · exact ha e he
              · intro hinv
                exact hb (by simp [sumLen_append, hinv])
              · intro tx htx
                rcases hcm tx htx with htx | htx
                · rcases List.mem_append.mp htx with htx | htx
                  · exact Or.inl htx
                  · exact Or.inr (List.mem_append.mpr (Or.inl (consumeChat_texts _ tx htx)))
                · exact Or.inr (List.mem_append.mpr (Or.inr htx))
    case isFalse hguard =>
      cases h
      exact ⟨by simp, fun hc => hc, fun tx htx => Or.inl htx⟩

/-- C2: every completed streaming Protocol-B call, whatever the upstream does
underneath (retries, fatal errors, pool exhaustion), emits an SSE sequence of
the shape `message_start, content_block_start, ping`, then deltas only, then
`content_block_stop, message_delta, message_stop`; hence it starts with
`message_start`, ends with `message_delta` followed by `message_stop`, and
contains exactly one `content_block_start` / `content_block_stop` pair, a
mid-stream error appearing only as a synthetic delta inside the envelope. -/
theorem C2_envelope_shape :
    ∀ (pick : List Nat → Option Nat) (env : Nat → Attempt) (hk : Bool) (fuel : Nat)
      (o : StreamOutcome), streamHandler pick env hk fuel = some o →
      ∃ ds n, (∀ e ∈ ds, ∃ t, e = SSE.contentBlockDelta t) ∧
        o.events = [SSE.messageStart, SSE.contentBlockStart, SSE.ping] ++ ds
          ++ [SSE.contentBlockStop, SSE.messageDelta n, SSE.messageStop] ∧
        o.events.head? = some SSE.messageStart ∧
        o.events.getLast? = some SSE.messageStop ∧
        o.events.count SSE.contentBlockStart = 1 ∧
        o.events.count SSE.contentBlockStop = 1 := by
  intro pick env hk fuel o h
  unfold streamHandler at h
  cases heq : loopStream pick env fuel 0 initStreamState with
  | none => rw [heq] at h; exact absurd h (by simp)
  | some r =>
    rw [heq] at h
    cases h
    have hds := (loopStream_spec pick env fuel 0 initStreamState r heq).1
    have hnotStart : SSE.contentBlockStart ∉ r.1 := by
      intro hmem
      obtain ⟨t, ht⟩ := (isDelta_iff _).mp (hds _ hmem)
      cases ht
    have hnotStop : SSE.contentBlockStop ∉ r.1 := by
      intro hmem
      obtain ⟨t, ht⟩ := (isDelta_iff _).mp (hds _ hmem)
      cases ht
    refine ⟨r.1, jsCeilDiv4 r.2.charCount,
      fun e he => (isDelta_iff e).mp (hds e he), rfl, rfl, ?_, ?_, ?_⟩
    · show ([SSE.messageStart, SSE.contentBlockStart, SSE.ping] ++ r.1
        ++ ([SSE.contentBlockStop, SSE.messageDelta (jsCeilDiv4 r.2.charCount)]
            ++ [SSE.messageStop])).getLast? = some SSE.messageStop
      rw [← List.append_assoc]
      exact List.getLast?_concat _
    · show ([SSE.messageStart, SSE.contentBlockStart, SSE.ping] ++ (r.1
        ++ [SSE.contentBlockStop, SSE.messageDelta (jsCeilDiv4 r.2.charCount),
            SSE.messageStop])).count SSE.contentBlockStart = 1
      rw [List.count_append, List.count_append, List.count_eq_zero.mpr hnotStart]
      rfl
    · show ([SSE.messageStart, SSE.contentBlockStart, SSE.ping] ++ (r.1
        ++ [SSE.contentBlockStop, SSE.messageDelta (jsCeilDiv4 r.2.charCount),
            SSE.messageStop])).count SSE.contentBlockStop = 1
      rw [List.count_append, List.count_append, List.count_eq_zero.mpr hnotStop]
      rfl

/-- C2 witness: a concrete run whose only attempt yields one token and then a
fatal upstream error still produces the full well-formed envelope, the error
folded into one bracketed synthetic delta. -/
theorem C2_envelope_shape_witness :
    ∃ ds n, (∀ e ∈ ds, ∃ t, e = SSE.contentBlockDelta t) ∧
      fatalOutcome.events = [SSE.messageStart, SSE.contentBlockStart, SSE.ping] ++ ds
        ++ [SSE.contentBlockStop, SSE.messageDelta n, SSE.messageStop] ∧
      fatalOutcome.events.head? = some SSE.messageStart ∧
      fatalOutcome.events.getLast? = some SSE.messageStop ∧
      fatalOutcome.events.count SSE.contentBlockStart = 1 ∧
      fatalOutcome.events.count SSE.contentBlockStop = 1 :=
  C2_envelope_shape freshPick fatalChatEnv true 1 fatalOutcome (by decide)

/-- The usage counter of a completed non-streaming call is 1 exactly when the
call ended in success and validated API-key info is present, and 0 otherwise. -/
theorem nsLoop_usage (pick : List Nat → Option Nat) (env : Nat → Attempt) (hk : Bool) :
    ∀ (fuel ix : Nat) (ex : List Nat) (rc : Nat) (fc le : JStr) (o : NsOutcome),
      nsLoop pick env hk fuel ix ex rc fc le = some o →
      o.usageIncrements = if o.ending = NsEnding.succeeded ∧ hk = true then 1 else 0 := by
  intro fuel
  induction fuel with
  | zero => intro ix ex rc fc le o h; simp [nsLoop] at h
  | succ fuel ih =>
    intro ix ex rc fc le o h
    simp only [nsLoop] at h
    split at h
    case isTrue hguard =>
      split at h
      case h_1 heq => cases h; simp
      case h_2 tokId heq =>
        split at h
        case h_1 m hexit => exact ih _ _ _ _ _ _ h
        case h_2 m hexit => cases h; simp
        case h_3 hexit =>
          cases h
          cases hk <;> simp
        case h_4 hexit =>
          split at h
          case h_1 m hthrown =>
            split at h
            case isTrue hrl => exact ih _ _ _ _ _ _ h
            case isFalse hrl => cases h; simp
          case h_2 hthrown => exact ih _ _ _ _ _ _ h
    case isFalse hguard => cases h; simp

/-- A completed non-streaming call whose ending is pool or retry exhaustion
answered with the 529 overloaded error body. -/
theorem nsLoop_overloaded (pick : List Nat → Option Nat) (env : Nat → Attempt) (hk : Bool) :
    ∀ (fuel ix : Nat) (ex : List Nat) (rc : Nat) (fc le : JStr) (o : NsOutcome),
      nsLoop pick env hk fuel ix ex rc fc le = some o →
      o.ending = NsEnding.poolExhausted ∨ o.ending = NsEnding.retryExhausted →
      ∃ msg, o.response = NsResponse.errorResp 529 overloadedErrorType msg := by
  intro fuel
  induction fuel with
  | zero => intro ix ex rc fc le o h; simp [nsLoop] at h
  | succ fuel ih =>
    intro ix ex rc fc le o h hend
    simp only [nsLoop] at h
    split at h
    case isTrue hguard =>
      split at h
      case h_1 heq => cases h; exact ⟨poolMsgNs ex, rfl⟩
      case h_2 tokId heq =>
        split at h
        case h_1 m hexit => exact ih _ _ _ _ _ _ h hend
        case h_2 m hexit => cases h; simp at hend
        case h_3 hexit => cases h; simp at hend
        case h_4 hexit =>
          split at h
          case h_1 m hthrown =>
            split at h
            case isTrue hrl => exact ih _ _ _ _ _ _ h hend
            case isFalse hrl => cases h; simp at hend
          case h_2 hthrown => exact ih _ _ _ _ _ _ h hend
    case isFalse hguard =>
      cases h
      exact ⟨_, rfl⟩

/-- A completed non-streaming call that returns a message body reports
`Math.ceil(fullContent.length / 4)` output tokens for that body's content. -/
theorem nsLoop_tokens (pick : List Nat → Option Nat) (env : Nat → Attempt) (hk : Bool) :
    ∀ (fuel ix : Nat) (ex : List Nat) (rc : Nat) (fc le : JStr) (o : NsOutcome),
      nsLoop pick env hk fuel ix ex rc fc le = some o →
      ∀ c t, o.response = NsResponse.messageResp c t → t = jsCeilDiv4 c.length := by
  intro fuel
  induction fuel with
  | zero => intro ix ex rc fc le o h; simp [nsLoop] at h
  | succ fuel ih =>
    intro ix ex rc fc le o h c t hresp
    simp only [nsLoop] at h
    split at h
    case isTrue hguard =>
      split at h
      case h_1 heq => cases h; cases hresp
      case h_2 tokId heq =>
        split at h
        case h_1 m hexit => exact ih _ _ _ _ _ _ h c t hresp
        case h_2 m hexit => cases h; cases hresp
        case h_3 hexit =>
          cases h
          cases hresp
          rfl
        case h_4 hexit =>
          split at h
          case h_1 m hthrown =>
            split at h
            case isTrue hrl => exact ih _ _ _ _ _ _ h c t hresp
            case isFalse hrl => cases h; cases hresp
          case h_2 hthrown => exact ih _ _ _ _ _ _ h c t hresp
    case isFalse hguard => cases h; cases hresp

/-- C5: every non-streaming Protocol-B call that completes in pool exhaustion
or retry exhaustion returns exactly one error body
`{type:"error", error:{type:"overloaded_error", message}}` with HTTP
status 529, never a partial success body. -/
theorem C5_overloaded_classification :
    ∀ (pick : List Nat → Option Nat) (env : Nat → Attempt) (hk : Bool) (fuel : Nat)
      (o : NsOutcome), nsHandler pick env hk fuel = some o →
      o.ending = NsEnding.poolExhausted ∨ o.ending = NsEnding.retryExhausted →
      ∃ msg, o.response = NsResponse.errorResp 529 overloadedErrorType msg := by
  intro pick env hk fuel o h hend
  exact nsLoop_overloaded pick env hk fuel 0 [] 0 [] [] o h hend

/-- C5 witness: the concrete empty-pool run returns the 529 overloaded body. -/
theorem C5_overloaded_classification_witness :
    ∃ msg, poolNsOutcome.response = NsResponse.errorResp 529 overloadedErrorType msg :=
  C5_overloaded_classification noPick okChatEnv true 1 poolNsOutcome (by decide) (Or.inl rfl)

/-- C6: `incrementApiKeyUsage` is invoked exactly once on a successfully
completed call and never otherwise, in both the streaming and non-streaming
Protocol-B paths (given the request carries validated API-key info, which the
auth middleware guarantees for these handlers), and never more than once in
any case. -/
theorem C6_usage_accounting :
    (∀ (pick : List Nat → Option Nat) (env : Nat → Attempt) (fuel : Nat)
        (o : StreamOutcome), streamHandler pick env true fuel = some o →
        (o.usageIncrements = 1 ↔ o.success = true)) ∧
    (∀ (pick : List Nat → Option Nat) (env : Nat → Attempt) (hk : Bool) (fuel : Nat)
        (o : StreamOutcome), streamHandler pick env hk fuel = some o →
        o.usageIncrements ≤ 1) ∧
    (∀ (pick : List Nat → Option Nat) (env : Nat → Attempt) (fuel : Nat)
        (o : NsOutcome), nsHandler pick env true fuel = some o →
        (o.usageIncrements = 1 ↔ o.ending = NsEnding.succeeded)) ∧
    (∀ (pick : List Nat → Option Nat) (env : Nat → Attempt) (hk : Bool) (fuel : Nat)
        (o : NsOutcome), nsHandler pick env hk fuel = some o →
        o.usageIncrements ≤ 1) := by
  refine ⟨?_, ?_, ?_, ?_⟩
  · intro pick env fuel o h
    unfold streamHandler at h
    cases heq : loopStream pick env fuel 0 initStreamState with
    | none => rw [heq] at h; exact absurd h (by simp)
    | some r =>
      rw [heq] at h
      cases h
      cases hs : r.2.success <;> simp [hs]
  · intro pick env hk fuel o h
    unfold streamHandler at h
    cases heq : loopStream pick env fuel 0 initStreamState with
    | none => rw [heq] at h; exact absurd h (by simp)
    | some r =>
      rw [heq] at h
      cases h
      cases hs : r.2.success && hk <;> simp [hs]
  · intro pick env fuel o h
    have := nsLoop_usage pick env true fuel 0 [] 0 [] [] o h
    rw [this]
    by_cases he : o.ending = NsEnding.succeeded <;> simp [he]
  · intro pick env hk fuel o h
    have := nsLoop_usage pick env hk fuel 0 [] 0 [] [] o h
    rw [this]
    split <;> simp

/-- C6 witness: on a concrete successful streaming run and a concrete
successful non-streaming run the counter is 1; both instances are obtained
from the accounting theorem. -/
theorem C6_usage_accounting_witness :
    (okStreamOutcome.usageIncrements = 1 ↔ okStreamOutcome.success = true) ∧
    (okNsOutcome.usageIncrements = 1 ↔ okNsOutcome.ending = NsEnding.succeeded) :=
  ⟨C6_usage_accounting.1 freshPick okChatEnv 1 okStreamOutcome (by decide),
   C6_usage_accounting.2.2.1 freshPick okChatEnv 1 okNsOutcome (by decide)⟩

/-- C7: the Protocol-B output-token estimate is `ceil(totalChars / 4)` with
`totalChars` the total character count of the upstream text deltas delivered
for the call: the streaming envelope's `message_delta` carries
`Math.ceil(charCount / 4)` where `charCount` sums exactly the delivered
`TextDelta` texts (each of which appears as a pushed delta), and the
non-streaming success body carries `Math.ceil(fullContent.length / 4)`. -/
theorem C7_output_token_estimate :
    (∀ (pick : List Nat → Option Nat) (env : Nat → Attempt) (hk : Bool) (fuel : Nat)
        (o : StreamOutcome), streamHandler pick env hk fuel = some o →
        (∃ pre, o.events = pre ++ [SSE.contentBlockStop,
            SSE.messageDelta (jsCeilDiv4 (sumLen o.delivered)), SSE.messageStop]) ∧
        (∀ tx ∈ o.delivered, SSE.contentBlockDelta tx ∈ o.events)) ∧
    (∀ (pick : List Nat → Option Nat) (env : Nat → Attempt) (hk : Bool) (fuel : Nat)
        (o : NsOutcome) (c : JStr) (t : Nat), nsHandler pick env hk fuel = some o →
        o.response = NsResponse.messageResp c t → t = jsCeilDiv4 c.length) := by
  constructor
  · intro pick env hk fuel o h
    unfold streamHandler at h
    cases heq : loopStream pick env fuel 0 initStreamState with
    | none => rw [heq] at h; exact absurd h (by simp)
    | some r =>
      rw [heq] at h
      cases h
      obtain ⟨_, hchar, hmem⟩ := loopStream_spec pick env fuel 0 initStreamState r heq
      have hcc : r.2.charCount = sumLen r.2.delivered := hchar rfl
      constructor
      · refine ⟨[SSE.messageStart, SSE.contentBlockStart, SSE.ping] ++ r.1, ?_⟩
        rw [hcc]
      · intro tx htx
        rcases hmem tx htx with htx | htx
        · cases htx
        · exact List.mem_append.mpr (Or.inl (List.mem_append.mpr (Or.inr htx)))
  · intro pick env hk fuel o c t h hresp
    exact nsLoop_tokens pick env hk fuel 0 [] 0 [] [] o h c t hresp

/-- C7 witness: concrete successful runs delivering the texts hi and you
report output-token estimate `ceil(5/4) = 2` on both paths. -/
theorem C7_output_token_estimate_witness :
    ((∃ pre, okStreamOutcome.events = pre ++ [SSE.contentBlockStop,
        SSE.messageDelta (jsCeilDiv4 (sumLen okStreamOutcome.delivered)), SSE.messageStop]) ∧
      (∀ tx ∈ okStreamOutcome.delivered,
        SSE.contentBlockDelta tx ∈ okStreamOutcome.events)) ∧
    (2 : Nat) = jsCeilDiv4 (['h', 'i', 'y', 'o', 'u'] : JStr).length :=
  ⟨C7_output_token_estimate.1 freshPick okChatEnv true 1 okStreamOutcome (by decide),
   C7_output_token_estimate.2 freshPick okChatEnv true 1 okNsOutcome
     ['h', 'i', 'y', 'o', 'u'] 2 (by decide) rfl⟩

/-- C4 counterexample: with an empty credential pool but a requested image
count of 0, the /api/imagine/generate loop guard
`retryCount < MAX_RETRIES && totalCollected < targetCount` is false at once,
so the call terminates with NO events at all, in particular without the
single terminal pool-exhaustion error the claim requires of every
orchestrated call. -/
theorem C4_counterexample :
    genRun noPick none emptyGenEnv 0 1 = some [] ∧
    (∀ m, GenEvt.errorE m ∉ ([] : List GenEvt)) :=
  ⟨by decide, fun m => List.not_mem_nil _⟩

/-- C4 (amended): if the credential pool is empty, the non-streaming
/v1/messages call terminates immediately with the single 529 pool-exhaustion
error and no content and no usage increment, and the /api/imagine/generate
call — provided the requested image count is positive, without which the
loop body never runs and no error is emitted — writes exactly one
pool-exhaustion error event and no image, info, progress or done events,
regardless of the remaining retry budget. -/
theorem C4_empty_pool :
    (∀ (pick : List Nat → Option Nat) (env : Nat → GenAttempt) (target fuel : Nat),
        (∀ ex, pick ex = none) → 0 < target →
        genRun pick none env target (fuel + 1) = some [GenEvt.errorE noTokensMsgGen]) ∧
    (∀ (pick : List Nat → Option Nat) (env : Nat → Attempt) (hk : Bool) (fuel : Nat),
        pick [] = none →
        nsHandler pick env hk (fuel + 1) =
          some ⟨NsResponse.errorResp 529 overloadedErrorType noTokensMsgNs,
                NsEnding.poolExhausted, 0⟩) := by
  constructor
  · intro pick env target fuel hpick htarget
    have hguard : (0 < MAX_RETRIES ∧ 0 < target) := ⟨by decide, htarget⟩
    have hsel : selGen none pick 0 [] = none := by
      simp [selGen, hpick]
    simp [genRun, genLoop, hguard, hsel, poolMsgGen]
  · intro pick env hk fuel hpick
    have hguard : 0 < MAX_RETRIES := by decide
    simp [nsHandler, nsLoop, hguard, hpick, poolMsgNs]

/-- C4 witness: concrete empty-pool runs for both paths. -/
theorem C4_empty_pool_witness :
    genRun noPick none emptyGenEnv 1 1 = some [GenEvt.errorE noTokensMsgGen] ∧
    nsHandler noPick okChatEnv true 1 =
      some ⟨NsResponse.errorResp 529 overloadedErrorType noTokensMsgNs,
            NsEnding.poolExhausted, 0⟩ :=
  ⟨C4_empty_pool.1 noPick emptyGenEnv 1 0 (fun _ => rfl) (by decide),
   C4_empty_pool.2 noPick okChatEnv true 0 rfl⟩

/-- The dedup-and-yield loop implements the first-occurrence filter: the new
accumulator appends exactly the urls kept, and the image events carry exactly
those urls in order. -/
theorem emitNew_spec (us : List JStr) : ∀ collected,
    (emitNew collected us).1 = collected ++ firstOccur collected us ∧
    imageUrlsOf (emitNew collected us).2 = firstOccur collected us := by
  induction us with
  | nil => intro collected; simp [emitNew, firstOccur, imageUrlsOf]
  | cons u rest ih =>
    intro collected
    by_cases hu : u ∈ collected
    · simpa [emitNew, firstOccur, hu] using ih collected
    · obtain ⟨h1, h2⟩ := ih (collected ++ [u])
      simp only [imageUrlsOf] at h2
      constructor
      · simp [emitNew, firstOccur, hu, h1]
      · simp [emitNew, firstOccur, imageUrlsOf, hu, h2]

/-- Splitting the first-occurrence filter over an append. -/
theorem firstOccur_append (b : List JStr) : ∀ (a c : List JStr),
    firstOccur c (a ++ b) = firstOccur c a ++ firstOccur (c ++ firstOccur c a) b := by
  intro a
  induction a with
  | nil => intro c; simp [firstOccur]
  | cons u rest ih =>
    intro c
    by_cases hu : u ∈ c
    · simp [firstOccur, hu, ih c]
    · simp [firstOccur, hu, ih (c ++ [u]), List.append_assoc]

/-- Membership in the first-occurrence filter. -/
theorem firstOccur_mem (l : List JStr) : ∀ (seen : List JStr) (u : JStr),
    u ∈ firstOccur seen l ↔ u ∈ l ∧ u ∉ seen := by
  induction l with
  | nil => intro seen u; simp [firstOccur]
  | cons v rest ih =>
    intro seen u
    by_cases hv : v ∈ seen
    · rw [firstOccur, if_pos hv, ih]
      constructor
      · rintro ⟨h1, h2⟩; exact ⟨List.mem_cons_of_mem _ h1, h2⟩
      · rintro ⟨h1, h2⟩
        rcases List.mem_cons.mp h1 with rfl | h1
        · exact absurd hv h2
        · exact ⟨h1, h2⟩
    · rw [firstOccur, if_neg hv]
      constructor
      · intro h
        rcases List.mem_cons.mp h with rfl | h
        · exact ⟨List.mem_cons_self _ _, hv⟩
        · obtain ⟨h1, h2⟩ := (ih _ _).mp h
          exact ⟨List.mem_cons_of_mem _ h1,
            fun hu => h2 (List.mem_append.mpr (Or.inl hu))⟩
      · rintro ⟨h1, h2⟩
        rcases List.mem_cons.mp h1 with rfl | h1
        · exact List.mem_cons_self _ _
        · by_cases huv : u = v
          · subst huv; exact List.mem_cons_self _ _
          · refine List.mem_cons_of_mem _ ((ih _ _).mpr ⟨h1, ?_⟩)
            intro hm
            rcases List.mem_append.mp hm with hm | hm
            · exact h2 hm
            · rw [List.mem_singleton] at hm; exact huv hm

/-- The first-occurrence filter has no duplicates. -/
theorem firstOccur_nodup (l : List JStr) : ∀ seen : List JStr, (firstOccur seen l).Nodup := by
  induction l with
  | nil => intro seen; simp [firstOccur]
  | cons v rest ih =>
    intro seen
    by_cases hv : v ∈ seen
    · rw [firstOccur, if_pos hv]; exact ih seen
    · rw [firstOccur, if_neg hv]
      refine List.nodup_cons.mpr ⟨?_, ih _⟩
      intro hmem
      exact ((firstOccur_mem rest _ v).mp hmem).2
        (List.mem_append.mpr (Or.inr (List.mem_singleton.mpr rfl)))

/-- The first-occurrence filter is a sublist (preserves discovery order). -/
theorem firstOccur_sublist (l : List JStr) :
    ∀ seen : List JStr, List.Sublist (firstOccur seen l) l := by
  induction l with
  | nil => intro seen; simp [firstOccur]
  | cons v rest ih =>
    intro seen
    by_cases hv : v ∈ seen
    · rw [firstOccur, if_pos hv]; exact List.Sublist.cons _ (ih seen)
    · rw [firstOccur, if_neg hv]; exact List.Sublist.cons₂ _ (ih _)

/-- One frame of the streamImageEdit loop implements the first-occurrence
filter over all urls the frame surfaces. -/
theorem editFrameStep_spec (collected : List JStr) (f : EditFrame) :
    (editFrameStep collected f).1 = collected ++ firstOccur collected (frameUrls f) ∧
    imageUrlsOf (editFrameStep collected f).2 = firstOccur collected (frameUrls f) := by
  cases f with
  | noResponse => simp [editFrameStep, frameUrls, firstOccur, imageUrlsOf]
  | progressFrame i p => simp [editFrameStep, frameUrls, firstOccur, imageUrlsOf]
  | dataFrame mr direct =>
    obtain ⟨h1, h2⟩ := emitNew_spec (mr.getD []) collected
    obtain ⟨h3, h4⟩ := emitNew_spec direct (emitNew collected (mr.getD [])).1
    constructor
    · show (emitNew (emitNew collected (mr.getD [])).1 direct).1
        = collected ++ firstOccur collected (mr.getD [] ++ direct)
      rw [h3, h1, firstOccur_append, List.append_assoc]
    · show imageUrlsOf ((emitNew collected (mr.getD [])).2
        ++ (emitNew (emitNew collected (mr.getD [])).1 direct).2)
        = firstOccur collected (mr.getD [] ++ direct)
      unfold imageUrlsOf at h2 h4 ⊢
      rw [List.filterMap_append, h2, h4, h1, firstOccur_append]

/-- The whole streamImageEdit decode loop implements the first-occurrence
filter over the urls discovered across all frames. -/
theorem editRunFrames_spec (frames : List EditFrame) : ∀ collected : List JStr,
    (editRunFrames collected frames).1
      = collected ++ firstOccur collected (discoveredUrls frames) ∧
    imageUrlsOf (editRunFrames collected frames).2
      = firstOccur collected (discoveredUrls frames) := by
  induction frames with
  | nil => intro collected; simp [editRunFrames, discoveredUrls, firstOccur, imageUrlsOf]
  | cons f rest ih =>
    intro collected
    obtain ⟨h1, h2⟩ := editFrameStep_spec collected f
    obtain ⟨h3, h4⟩ := ih (editFrameStep collected f).1
    have hdisc : discoveredUrls (f :: rest) = frameUrls f ++ discoveredUrls rest := by
      simp [discoveredUrls]
    constructor
    · show (editRunFrames (editFrameStep collected f).1 rest).1
        = collected ++ firstOccur collected (discoveredUrls (f :: rest))
      rw [h3, h1, hdisc, firstOccur_append, List.append_assoc]
    · show imageUrlsOf ((editFrameStep collected f).2
        ++ (editRunFrames (editFrameStep collected f).1 rest).2)
        = firstOccur collected (discoveredUrls (f :: rest))
      unfold imageUrlsOf at h2 h4 ⊢
      rw [List.filterMap_append, h2, h4, h1, hdisc, firstOccur_append]

/-- C3 counterexample: the dedup accumulator is recreated per attempt, so the
claim's cross-retry half fails: a concrete client request whose first attempt
forwards the url `u` and then throws with a rate-limit marker, and whose
second attempt surfaces the same url, delivers two image events for `u` —
the url is forwarded downstream twice within one logical client request, and
the image-event count (2) exceeds the distinct-url count (1). -/
theorem C3_counterexample :
    img2imgRun freshPick none dupEditEnv 2
      = some [ImgEvt.progressE, ImgEvt.progressE, ImgEvt.imageE ['u'], ImgEvt.progressE,
              ImgEvt.infoE, ImgEvt.progressE, ImgEvt.progressE, ImgEvt.imageE ['u'],
              ImgEvt.progressE, ImgEvt.doneE] ∧
    [ImgEvt.progressE, ImgEvt.progressE, ImgEvt.imageE ['u'], ImgEvt.progressE,
     ImgEvt.infoE, ImgEvt.progressE, ImgEvt.progressE, ImgEvt.imageE ['u'],
     ImgEvt.progressE, ImgEvt.doneE].count (ImgEvt.imageE ['u']) = 2 := by
  decide

/-- C3 (amended): within one streamImageEdit invocation — a single upstream
attempt — for any sequence of decoded upstream frames, even one in which the
upstream repeats a url, the image events delivered carry exactly the first
occurrences of the discovered urls: no url is forwarded twice, the events
preserve discovery order, and their number equals the number of distinct urls
collected. The accumulator is attempt-scoped, so the guarantee does not
extend across credential retries of the same client request. -/
theorem C3_media_dedup (frames : List EditFrame) :
    imageUrlsOf (editEvents frames) = firstOccur [] (discoveredUrls frames) ∧
    (imageUrlsOf (editEvents frames)).Nodup ∧
    List.Sublist (imageUrlsOf (editEvents frames)) (discoveredUrls frames) ∧
    (imageUrlsOf (editEvents frames)).toFinset = (discoveredUrls frames).toFinset ∧
    (imageUrlsOf (editEvents frames)).length = (discoveredUrls frames).toFinset.card := by
  have h : imageUrlsOf (editEvents frames) = firstOccur [] (discoveredUrls frames) :=
    (editRunFrames_spec frames []).2
  have hfin : (firstOccur [] (discoveredUrls frames)).toFinset
      = (discoveredUrls frames).toFinset := by
    ext u
    simp [List.mem_toFinset, firstOccur_mem]
  refine ⟨h, ?_, ?_, ?_, ?_⟩
  · rw [h]; exact firstOccur_nodup _ []
  · rw [h]; exact firstOccur_sublist _ []
  · rw [h]; exact hfin
  · rw [h, ← hfin]
    exact (List.toFinset_card_of_nodup (firstOccur_nodup _ [])).symm

/-- `split` always returns at least one segment. -/
theorem splitNl_ne_nil (s : List Char) : splitNl s ≠ [] := by
  cases s with
  | nil => simp [splitNl]
  | cons c rest => by_cases hc : c = '\n' <;> simp [splitNl, hc]

theorem headD_cons_tail {α : Type} (l : List α) (d : α) (h : l ≠ []) :
    l.headD d :: l.tail = l := by
  cases l with
  | nil => exact absurd rfl h
  | cons a t => rfl

/-- The last segment of an append, under any default. -/
theorem getLastD_append_cons {α : Type} (x : α) (t : List α) : ∀ (l : List α) (d : α),
    (l ++ x :: t).getLastD d = t.getLastD x := by
  intro l
  induction l with
  | nil => intro d; exact List.getLastD_cons d x t
  | cons a l2 ih => intro d; rw [List.cons_append, List.getLastD_cons, ih]

/-- Splitting on newline distributes over append: the segments of `a` except
its trailing one, then the trailing segment of `a` glued to the first segment
of `b`, then the remaining segments of `b`. -/
theorem splitNl_append (b : List Char) : ∀ a : List Char,
    splitNl (a ++ b) = (splitNl a).dropLast
      ++ ((splitNl a).getLastD [] ++ (splitNl b).headD []) :: (splitNl b).tail := by
  intro a
  induction a with
  | nil =>
    show splitNl b = ((splitNl b).headD []) :: (splitNl b).tail
    exact (headD_cons_tail (splitNl b) [] (splitNl_ne_nil b)).symm
  | cons c rest ih =>
    by_cases hc : c = '\n'
    · subst hc
      rw [List.cons_append, splitNl, if_pos rfl, ih]
      rw [splitNl, if_pos rfl]
      cases hsr : splitNl rest with
      | nil => exact absurd hsr (splitNl_ne_nil rest)
      | cons x xs =>
        simp [List.getLastD_cons]
    · rw [List.cons_append, splitNl, if_neg hc, ih]
      rw [splitNl, if_neg hc]
      cases hsr : splitNl rest with
      | nil => exact absurd hsr (splitNl_ne_nil rest)
      | cons x xs =>
        cases xs with
        | nil => simp [List.getLastD_cons]
        | cons y ys => simp [List.getLastD_cons, getLastD_append_cons]

/-- A string without newlines is a single segment. -/
theorem splitNl_nonl (s : List Char) (h : ∀ c ∈ s, c ≠ '\n') : splitNl s = [s] := by
  induction s with
  | nil => rfl
  | cons c rest ih =>
    have hc : c ≠ '\n' := h c (List.mem_cons_self _ _)
    rw [splitNl, if_neg hc, ih (fun x hx => h x (List.mem_cons_of_mem _ hx))]
    rfl

/-- The trailing segment of a split never contains a newline. -/
theorem splitNl_last_nonl (s : List Char) :
    ∀ c ∈ (splitNl s).getLastD [], c ≠ '\n' := by
  induction s with
  | nil => simp [splitNl]
  | cons c rest ih =>
    by_cases hc : c = '\n'
    · subst hc
      rw [splitNl, if_pos rfl]
      cases hsr : splitNl rest with
      | nil => exact absurd hsr (splitNl_ne_nil rest)
      | cons x xs =>
        rw [hsr] at ih
        simpa [List.getLastD_cons] using ih
    · rw [splitNl, if_neg hc]
      cases hsr : splitNl rest with
      | nil => exact absurd hsr (splitNl_ne_nil rest)
      | cons x xs =>
        rw [hsr] at ih
        cases xs with
        | nil =>
          simp only [List.headD_cons, List.tail_cons, List.getLastD_cons, List.getLastD_nil]
          intro ch hch
          rcases List.mem_cons.mp hch with rfl | hch
          · exact hc
          · exact ih ch (by simpa [List.getLastD_cons, List.getLastD_nil] using hch)
        | cons y ys =>
          rw [List.getLastD_cons, List.getLastD_cons] at ih
          show ∀ ch ∈ ((c :: x) :: y :: ys).getLastD [], ch ≠ '\n'
          rw [List.getLastD_cons, List.getLastD_cons]
          exact ih

/-- One decode-loop iteration preserves the characterization: the lines handed
out so far are the non-trailing segments of everything read, and the buffer is
the trailing segment. -/
theorem feedChunk_spec (acc : List (List Char)) (s ch : List Char) :
    feedChunk (acc ++ (splitNl s).dropLast, (splitNl s).getLastD []) ch
      = (acc ++ (splitNl (s ++ ch)).dropLast, (splitNl (s ++ ch)).getLastD []) := by
  have hL : splitNl ((splitNl s).getLastD []) = [(splitNl s).getLastD []] :=
    splitNl_nonl _ (splitNl_last_nonl s)
  have happ2 := splitNl_append ch ((splitNl s).getLastD [])
  rw [hL] at happ2
  show ((acc ++ (splitNl s).dropLast) ++ (splitNl ((splitNl s).getLastD [] ++ ch)).dropLast,
        (splitNl ((splitNl s).getLastD [] ++ ch)).getLastD [])
      = (acc ++ (splitNl (s ++ ch)).dropLast, (splitNl (s ++ ch)).getLastD [])
  rw [happ2, splitNl_append ch s]
  simp only [List.dropLast_single, List.nil_append, List.getLastD_cons, List.getLastD_nil,
    List.dropLast_append_cons, getLastD_append_cons, List.append_assoc, Prod.mk.injEq,
    and_self, and_true, true_and]

/-- The decode loop over any chunk list, from any reached state. -/
theorem feedAll_spec (chunks : List (List Char)) : ∀ (acc : List (List Char)) (s : List Char),
    chunks.foldl feedChunk (acc ++ (splitNl s).dropLast, (splitNl s).getLastD [])
      = (acc ++ (splitNl (s ++ chunks.flatten)).dropLast,
         (splitNl (s ++ chunks.flatten)).getLastD []) := by
  induction chunks with
  | nil => intro acc s; simp
  | cons ch rest ih =>
    intro acc s
    rw [List.foldl_cons, feedChunk_spec, ih]
    simp [List.append_assoc]

/-- C8: the stream decoder's line framing is chunking-invariant and
non-fatal: for any split of the upstream bytes into chunks, the lines handed
to the JSON parser are exactly the newline-terminated segments of the
concatenated stream (the trailing partial segment stays in the buffer and is
never parsed early); reading further chunks only appends newly completed
lines; and a line that fails to parse is skipped, yielding no frame and
leaving all later lines' frames intact. -/
theorem C8_decoder_framing :
    (∀ chunks : List (List Char),
        feedAll chunks
          = ((splitNl chunks.flatten).dropLast, (splitNl chunks.flatten).getLastD [])) ∧
    (∀ chunks more : List (List Char),
        ∃ ext, (feedAll (chunks ++ more)).1 = (feedAll chunks).1 ++ ext) ∧
    (∀ (parse : List Char → Option EditFrame) (pre post : List (List Char))
        (bad : List Char), parse bad = none →
        decodedFrames parse (pre ++ bad :: post)
          = decodedFrames parse pre ++ decodedFrames parse post) := by
  have hmain : ∀ chunks : List (List Char),
      feedAll chunks
        = ((splitNl chunks.flatten).dropLast, (splitNl chunks.flatten).getLastD []) := by
    intro chunks
    have h := feedAll_spec chunks [] []
    simpa [feedAll] using h
  refine ⟨hmain, ?_, ?_⟩
  · intro chunks more
    rw [hmain, hmain]
    refine ⟨((splitNl chunks.flatten).getLastD []
      ++ (splitNl more.flatten).headD []) :: (splitNl more.flatten).tail |>.dropLast, ?_⟩
    show (splitNl (chunks ++ more).flatten).dropLast = _
    rw [List.flatten_append, splitNl_append, List.dropLast_append_cons]
  · intro parse pre post bad hbad
    by_cases hb : isBlank bad <;>
      simp [decodedFrames, List.filterMap_append, List.filterMap_cons, hb, hbad]

/-- C8 witness: a line that fails to parse, sitting between two parseable
lines, is dropped while both neighbours still decode. -/
theorem C8_decoder_framing_witness :
    decodedFrames parseSample ([['o', 'k']] ++ ['x'] :: [['o', 'k']])
      = decodedFrames parseSample [['o', 'k']] ++ decodedFrames parseSample [['o', 'k']] :=
  C8_decoder_framing.2.2 parseSample [['o', 'k']] [['o', 'k']] ['x'] (by decide)

end GrokArt
